import Mathlib

/-!
Verification of the frame-indexed history storage and rollback state machine
of the `bevy_timewarp` crate, as a shallow embedding of the Rust sources.

Conventions used throughout:
* `Nat` (Rust `u32`) is embedded as `Nat`; Rust `saturating_sub`
  coincides with truncated `Nat` subtraction.
* A Rust `panic!` / failed `assert!` / `expect` is embedded as the `.error`
  branch of an `Except` result.
* Bevy ECS commands (insert / remove component) are embedded as explicit
  action values or record fields describing the command issued.
-/

namespace Timewarp

/-- Embedding of `FrameBuffer<T>` (`src/frame_buffer.rs`): a short buffer of
the last few values of `T` indexed by frame number.  `entries` is the
`VecDeque<Option<T>>` with list head = deque front (newest frame);
`front_frame` is the frame number of the head entry, 0 meaning empty. -/
structure FrameBuffer (T : Type) where
  entries : List (Option T)
  front_frame : Nat
  capacity : Nat
deriving DecidableEq, Repr

namespace FrameBuffer

variable {T : Type}

/-- `FrameBuffer::with_capacity(len)`. -/
def with_capacity (T : Type) (len : Nat) : FrameBuffer T :=
  { entries := [], front_frame := 0, capacity := len }

/-- `FrameBuffer::newest_frame`: greatest frame number with a buffered value. -/
def newest_frame (fb : FrameBuffer T) : Nat :=
  fb.front_frame

/-- `FrameBuffer::oldest_frame`:
`front_frame.saturating_sub(capacity as Nat + 1)`. -/
def oldest_frame (fb : FrameBuffer T) : Nat :=
  fb.front_frame - (fb.capacity + 1)

/-- `FrameBuffer::index`: index into the deque for a frame number, or `none`
if out of range. -/
def index (fb : FrameBuffer T) (frame : Nat) : Option Nat :=
  if frame > fb.front_frame then none
  else if frame ≤ fb.front_frame - fb.capacity then none
  else some (fb.front_frame - frame)

/-- `FrameBuffer::get`: value at frame, or `None` if out of range or if the
stored entry is an explicit `None` (the two are indistinguishable by design). -/
def get (fb : FrameBuffer T) (frame : Nat) : Option T :=
  match fb.index frame with
  | none => none
  | some i =>
    match fb.entries.get? i with
    | none => none
    | some val => val

/-- `FrameBuffer::insert`.  Returns the updated buffer plus a `Bool` that is
`true` exactly when the "Frame too old!" fault was reported (the Rust code
logs with `error!` and returns, dropping the write).
* frame below `oldest_frame()`: rejected, buffer unchanged, fault reported;
* frame with a valid index: the slot is overwritten in place
  (`List.set` is the identity when the index is past the end of `entries`,
  matching the Rust `get_mut` returning `None` and the write being dropped);
* otherwise: gap frames between `front_frame` and `frame` are pushed as
  explicit `None` entries, the value is pushed at the front, `front_frame`
  becomes `frame`, and the deque is truncated to `capacity`. -/
def insert (fb : FrameBuffer T) (frame : Nat) (value : T) :
    FrameBuffer T × Bool :=
  if frame < fb.oldest_frame then (fb, true)
  else
    match fb.index frame with
    | some i => ({ fb with entries := fb.entries.set i (some value) }, false)
    | none =>
      let gaps := frame - (fb.front_frame + 1)
      ({ entries := (some value :: (List.replicate gaps none ++ fb.entries)).take fb.capacity,
         front_frame := frame,
         capacity := fb.capacity }, false)

end FrameBuffer

/-- `TimewarpError` (`src/error.rs`), restricted to the variant the buffers
produce. -/
inductive TimewarpError where
  | FrameTooOld
deriving DecidableEq, Repr

/-- Modelled from the spec: the revision of `FrameBuffer::insert` used by
`src/components.rs` (whose `FrameBuffer` source file is not in the tree)
returns `Err(FrameTooOld)` for a write below the retained window
("Insert below `oldest_frame()`: rejected — a frame too old fault ... the
write is dropped and reported") and `Ok(())` otherwise; the slot mechanics
follow the `src/frame_buffer.rs` revision that is present. -/
def FrameBuffer.insertE {T : Type} (fb : FrameBuffer T) (frame : Nat)
    (value : T) : Except TimewarpError (FrameBuffer T) :=
  let r := fb.insert frame value
  if r.2 then .error .FrameTooOld else .ok r.1

/-- Concrete buffer used to exhibit the `oldest_frame` off-by-one: capacity 5,
frames 1..8 inserted in order (value = frame number), so `front_frame = 8`
and the deque physically holds frames 4..8. -/
def fbC5 : FrameBuffer Nat :=
  (List.range' 1 8).foldl (fun fb f => (fb.insert f f).1) (FrameBuffer.with_capacity Nat 5)

/-- Claim C5 (code_bug evidence): `fbC5` has `oldest_frame() = 2` and
`newest_frame() = 8`, so frame 3 lies within `[oldest_frame(), newest_frame()]`;
yet `insert(3, 33)` is not an in-place overwrite: it rewinds `front_frame`
to 3 (changing `newest_frame()` from 8 to 3) and destroys the values buffered
for frames 4..8, because `index` rejects frame 3 (`3 ≤ 8 - 5`) while the
too-old guard `3 < oldest_frame() = 2` does not fire. -/
theorem claim_C5_code_bug_eval :
    fbC5.oldest_frame = 2 ∧ fbC5.newest_frame = 8 ∧
    fbC5.get 3 = none ∧ fbC5.get 4 = some 4 ∧
    (fbC5.insert 3 33).2 = false ∧
    ((fbC5.insert 3 33).1.newest_frame = 3 ∧
      (fbC5.insert 3 33).1.get 8 = none ∧ (fbC5.insert 3 33).1.get 4 = none) := by
  decide

/-- Claim C6: an insert strictly below `oldest_frame()` is rejected as a
frame-too-old fault: the buffer is returned completely unchanged, the write is
dropped, and the fault is reported (flag `true`, the Rust `error!` log) rather
than propagated — `insert` returns normally. -/
theorem claim_C6_frame_too_old {T : Type} (fb : FrameBuffer T)
    (frame : Nat) (v : T) (h : frame < fb.oldest_frame) :
    fb.insert frame v = (fb, true) := by
  unfold FrameBuffer.insert
  simp [h]

/-- Concrete buffer for the C6 witness: capacity 2, frames 1..5 inserted,
so `oldest_frame() = 2`. -/
def fbC6 : FrameBuffer Nat :=
  (List.range' 1 5).foldl (fun fb f => (fb.insert f f).1) (FrameBuffer.with_capacity Nat 2)

/-- Witness for claim C6 at a concrete input: frame 1 is below
`fbC6.oldest_frame = 2` and the insert leaves the buffer unchanged. -/
theorem claim_C6_witness :
    (1 : Nat) < fbC6.oldest_frame ∧ fbC6.insert 1 99 = (fbC6, true) :=
  ⟨by decide, claim_C6_frame_too_old fbC6 1 99 (by decide)⟩

/-- One alive range of a component: `(start, end)`, end exclusive, open if
`none` (`FrameRange` in `src/components.rs`). -/
abbrev FrameRange := Nat × Option Nat

/-- `frame` falls in `[start, end)` of the range, the end treated as infinite
when open — the containment test used inside
`ComponentHistory::alive_at_frame`. -/
def rangeContains (r : FrameRange) (frame : Nat) : Bool :=
  decide (r.1 ≤ frame) &&
    (match r.2 with
     | none => true
     | some e => decide (e > frame))

/-- Embedding of `ComponentHistory<T>` (`src/components.rs`). -/
structure ComponentHistory (T : Type) where
  values : FrameBuffer T
  alive_ranges : List FrameRange
  correction_logging_enabled : Bool
deriving DecidableEq, Repr

namespace ComponentHistory

variable {T : Type}

/-- `ComponentHistory::with_capacity(len, birth_frame, component, entity)`:
fresh buffer, one open alive range starting at the birth frame, and the
initial component value inserted at the birth frame (the Rust code discards
the insert result: a brand new buffer cannot report a fault). -/
def with_capacity (len : Nat) (birth_frame : Nat) (component : T) :
    ComponentHistory T :=
  { values := ((FrameBuffer.with_capacity T len).insert birth_frame component).1,
    alive_ranges := [(birth_frame, none)],
    correction_logging_enabled := false }

/-- `ComponentHistory::at_frame`. -/
def at_frame (ch : ComponentHistory T) (frame : Nat) : Option T :=
  ch.values.get frame

/-- `ComponentHistory::insert` (defers to the buffer insert, which in this
revision returns a `Result`). -/
def insert (ch : ComponentHistory T) (frame : Nat) (val : T) :
    Except TimewarpError (ComponentHistory T) :=
  match ch.values.insertE frame val with
  | .error e => .error e
  | .ok values => .ok { ch with values := values }

/-- `ComponentHistory::alive_at_frame`: scans `alive_ranges` and returns true
on the first range containing the frame. -/
def alive_at_frame (ch : ComponentHistory T) (frame : Nat) : Bool :=
  ch.alive_ranges.any (fun r => rangeContains r frame)

/-- `ComponentHistory::report_birth_at_frame`: a no-op (with a warning) if
already alive at the frame; otherwise `assert!(values.get(frame).is_some())`
(embedded as the `.error` case) and push a new open range. -/
def report_birth_at_frame (ch : ComponentHistory T) (frame : Nat) :
    Except Unit (ComponentHistory T) :=
  if ch.alive_at_frame frame then .ok ch
  else if (ch.values.get frame).isSome then
    .ok { ch with alive_ranges := ch.alive_ranges ++ [(frame, none)] }
  else .error ()

/-- `ComponentHistory::report_death_at_frame`: a no-op if not currently alive
at the frame; otherwise closes the most recently pushed range at `frame`
(`alive_ranges.last_mut().unwrap().1 = Some(frame)`; aliveness guarantees the
list is non-empty). -/
def report_death_at_frame (ch : ComponentHistory T) (frame : Nat) :
    ComponentHistory T :=
  if ch.alive_at_frame frame then
    { ch with
      alive_ranges :=
        ch.alive_ranges.dropLast ++
          (match ch.alive_ranges.getLast? with
           | none => []
           | some r => [(r.1, some frame)]) }
  else ch

end ComponentHistory

/-- A lifetime-bookkeeping call on a `ComponentHistory` (claim C4). -/
inductive CHOp where
  | birth (frame : Nat)
  | death (frame : Nat)
deriving DecidableEq, Repr

/-- Apply one bookkeeping call; `.error` is a Rust panic (failed assert). -/
def applyCHOp {T : Type} (ch : ComponentHistory T) :
    CHOp → Except Unit (ComponentHistory T)
  | .birth f => ch.report_birth_at_frame f
  | .death f => .ok (ch.report_death_at_frame f)

/-- Run a sequence of bookkeeping calls; stops at the first panic. -/
def runCHOps {T : Type} (ch : ComponentHistory T) :
    List CHOp → Except Unit (ComponentHistory T)
  | [] => .ok ch
  | op :: ops =>
    match applyCHOp ch op with
    | .error e => .error e
    | .ok ch2 => runCHOps ch2 ops

/-- The `Rollback` resource (`src/resources.rs`): the frame range being
resimulated plus the preserved `FixedUpdate` period (a `Duration`, embedded
as `Nat`). -/
structure Rollback where
  range_start : Nat
  range_end : Nat
  original_period : Option Nat
deriving DecidableEq, Repr

/-- `Rollback::new(first_frame_to_resimulate, last_frame_to_resimulate)`. -/
def Rollback.new (first_frame_to_resimulate last_frame_to_resimulate : Nat) :
    Rollback :=
  { range_start := first_frame_to_resimulate,
    range_end := last_frame_to_resimulate,
    original_period := none }

/-- The process-wide singletons touched by the rollback lifecycle systems:
the game clock, the live `FixedUpdate` period, the optional `Rollback` and
`PreviousRollback` resources, and the `num_rollbacks` counter of
`RollbackStats`. -/
structure Sim where
  clock : Nat
  period : Nat
  rollback : Option Rollback
  previous_rollback : Option Rollback
  num_rollbacks : Nat
deriving DecidableEq, Repr

/-- `rollback_initiated` (`src/systems/prefix_start_rollback.rs`): runs when
the `Rollback` resource was just added.  If the requested range is at least
`rollback_window` frames deep it panics (`.error`); otherwise it saves the
current period into `rb.original_period`, bumps the rollback counter, zeroes
the period, and winds the clock to `range.start.saturating_sub(1)`. -/
def rollback_initiated (rollback_window : Nat) (s : Sim) : Except Unit Sim :=
  match s.rollback with
  | none => .ok s
  | some rb =>
    if rb.range_end - rb.range_start ≥ rollback_window then .error ()
    else
      .ok { s with
            rollback := some { rb with original_period := some s.period },
            num_rollbacks := s.num_rollbacks + 1,
            period := 0,
            clock := rb.range_start - 1 }

/-- `check_for_rollback_completion`
(`src/systems/prefix_check_for_rollback_completion.rs`): does nothing unless
the clock has reached `rb.range.end`; then stores a `PreviousRollback` copy,
restores the period from `rb.original_period.unwrap()` (`.error` = the unwrap
panic), and removes the `Rollback` resource. -/
def check_for_rollback_completion (s : Sim) : Except Unit Sim :=
  match s.rollback with
  | none => .ok s
  | some rb =>
    if rb.range_end ≠ s.clock then .ok s
    else
      match rb.original_period with
      | none => .error ()
      | some p =>
        .ok { s with
              previous_rollback := some rb,
              period := p,
              rollback := none }

/-- The net ECS command issued by `rollback_component` for one entity:
leave the live component alone, remove it, overwrite it by assignment, or
insert a value (bevy `insert` overwrites when the component is present). -/
inductive RollbackAction (T : Type) where
  | noop
  | removeComp
  | replaceComp (v : T)
  | insertComp (v : T)
deriving DecidableEq, Repr

/-- Effect of a `RollbackAction` on the live world value of the component. -/
def applyAction {T : Type} (live : Option T) : RollbackAction T → Option T
  | .noop => live
  | .removeComp => none
  | .replaceComp v => some v
  | .insertComp v => some v

/-- `rollback_component` (`src/systems/prefix_start_rollback.rs`), for one
entity.  `rollback_frame` is the clock (already wound back), raised to the
`OriginFrame` if present.  Classifies by
`(alive_at_frame rollback_frame, alive_at_frame rb.range.end)`; in the two
alive-at-`rollback_frame` cases a missing history value is a panic
(`.error`). -/
def rollback_component {T : Type} (rb : Rollback) (game_clock : Nat)
    (opt_comp : Option T) (comp_hist : ComponentHistory T)
    (opt_originframe : Option Nat) : Except Unit (RollbackAction T) :=
  let rollback_frame :=
    match opt_originframe with
    | some of => max game_clock of
    | none => game_clock
  let end_frame := rb.range_end
  match comp_hist.alive_at_frame rollback_frame, comp_hist.alive_at_frame end_frame with
  | false, false => .ok .noop
  | false, true => .ok .removeComp
  | true, true =>
    match comp_hist.at_frame rollback_frame with
    | none => .error ()
    | some v => if opt_comp.isSome then .ok (.replaceComp v) else .ok (.insertComp v)
  | true, false =>
    match comp_hist.at_frame rollback_frame with
    | none => .error ()
    | some v => .ok (.insertComp v)

/-- `RollbackConsolidationStrategy` (`src/resources.rs`). -/
inductive RollbackConsolidationStrategy where
  | Oldest
  | Newest
deriving DecidableEq, Repr

/-- The drain loop of `consolidate_rollback_requests`
(`src/systems/prefix_not_in_rollback.rs`): `rb_frame` starts at 0 and is
replaced by a request frame when it is still 0 or when the request is newer
(`Newest`) / older (`Oldest`) than the current pick. -/
def consolidate_fold (strategy : RollbackConsolidationStrategy)
    (reqs : List Nat) : Nat :=
  reqs.foldl
    (fun rb_frame f =>
      match strategy with
      | .Newest => if rb_frame = 0 ∨ f > rb_frame then f else rb_frame
      | .Oldest => if rb_frame = 0 ∨ f < rb_frame then f else rb_frame)
    0

/-- `consolidate_rollback_requests`: returns early when no requests are
pending, otherwise drains them and inserts
`Rollback::new(rb_frame, game_clock.frame())`. -/
def consolidate_rollback_requests (strategy : RollbackConsolidationStrategy)
    (reqs : List Nat) (game_clock : Nat) : Option Rollback :=
  if reqs.isEmpty then none
  else some (Rollback.new (consolidate_fold strategy reqs) game_clock)

/-- Effects of `apply_snapshots_and_maybe_rollback` on one entity: the
updated history, the `RollbackRequest` frames sent, the "latecomer" component
insert command if any, the deltas to the `non_rollback_updates` and
`range_faults` counters, and the updated `TimewarpStatus` last-snapshot
frame. -/
structure ApplySnapshotOutcome (T : Type) where
  comp_hist : ComponentHistory T
  requests : List Nat
  latecomer_insert : Option T
  non_rollback_updates : Nat
  range_faults : Nat
  last_snapshot_frame : Nat
deriving DecidableEq, Repr

/-- `apply_snapshots_and_maybe_rollback`
(`src/systems/prefix_check_if_rollback_needed.rs`), for one entity.
`ss` is the `ServerSnapshot` buffer, `tw_last_snap` the entity's
`TimewarpStatus.last_snapshot_frame`, `forced` the config flag
`force_rollback_always`.  Skips entities whose newest snapshot frame is 0;
panics (`.error`) where the Rust `expect`/`assert!` would. -/
def apply_snapshots_and_maybe_rollback {T : Type} [DecidableEq T]
    (ss : FrameBuffer T) (ch : ComponentHistory T) (tw_last_snap : Nat)
    (game_clock : Nat) (forced : Bool) :
    Except Unit (ApplySnapshotOutcome T) :=
  let snap_frame := ss.newest_frame
  if snap_frame = 0 then
    .ok ⟨ch, [], none, 0, 0, tw_last_snap⟩
  else
    let tw2 := max tw_last_snap snap_frame
    match ss.get snap_frame with
    | none => .error ()
    | some comp_from_snapshot =>
      if snap_frame = game_clock then
        .ok ⟨ch, [], some comp_from_snapshot, 1, 0, tw2⟩
      else
        let skip :=
          match ch.at_frame snap_frame with
          | some stored_comp_val => !forced && decide (stored_comp_val = comp_from_snapshot)
          | none => false
        if skip then .ok ⟨ch, [], none, 0, 0, tw2⟩
        else
          match ch.insert snap_frame comp_from_snapshot with
          | .error _ => .ok ⟨ch, [], none, 0, 1, tw2⟩
          | .ok ch1 =>
            let chE : Except Unit (ComponentHistory T) :=
              if ch1.alive_at_frame snap_frame then .ok ch1
              else
                match ch1.report_birth_at_frame snap_frame with
                | .error e => .error e
                | .ok ch2 =>
                  if (ch2.at_frame snap_frame).isSome then .ok ch2 else .error ()
            match chE with
            | .error e => .error e
            | .ok ch2 =>
              if snap_frame < game_clock then
                .ok ⟨ch2, [snap_frame + 1], none, 0, 0, tw2⟩
              else
                .ok ⟨ch2, [], none, 0, 0, tw2⟩

/-- `TimewarpCorrection<T>` (`src/components.rs`). -/
structure TimewarpCorrection (T : Type) where
  before : T
  after : T
  frame : Nat
deriving DecidableEq, Repr

/-- `record_component_history` (`src/systems/postfix_components.rs`), for one
entity.  Returns the updated history and the entity's
`TimewarpCorrection` slot after the system ran (`opt_correction` is the slot
before; creating and updating the component both leave the same value in the
slot).  A correction is produced only when correction logging is enabled, a
rollback is in progress whose `range.end` equals the clock frame, a value is
stored at that frame, and it differs from the current component value.
Finally the current value is recorded into the history (a failed insert is
dropped: the Rust code ignores the `Result`). -/
def record_component_history {T : Type} [DecidableEq T] (comp : T)
    (ch : ComponentHistory T) (opt_correction : Option (TimewarpCorrection T))
    (game_clock : Nat) (opt_rb : Option Rollback) :
    ComponentHistory T × Option (TimewarpCorrection T) :=
  let correction :=
    if ch.correction_logging_enabled then
      match opt_rb with
      | some rb =>
        if rb.range_end = game_clock then
          match ch.at_frame game_clock with
          | some old_val =>
            if old_val ≠ comp then some ⟨old_val, comp, game_clock⟩
            else opt_correction
          | none => opt_correction
        else opt_correction
      | none => opt_correction
    else opt_correction
  (match ch.insert game_clock comp with
   | .ok ch2 => ch2
   | .error _ => ch,
   correction)

/-- `despawn_entities_with_elapsed_despawn_marker`
(`src/systems/postfix_last.rs`), for one entity.  Returns the marker after the
tick and whether `despawn_recursive` was commanded.  A marker with no frame is
stamped with the current clock frame and the entity is kept (`continue`);
otherwise the entity is despawned exactly when
`marker_frame + rollback_window == clock` (`u32` addition, hence the
`% 2^32`). -/
def despawn_marker_step (marker : Option Nat)
    (game_clock rollback_window : Nat) : Option Nat × Bool :=
  match marker with
  | none => (some game_clock, false)
  | some m => (some m, decide ((m + rollback_window) % 4294967296 = game_clock))

/-! ### Basic lemmas about the embedded operations -/

/-- Frame 0 never holds a value: `index 0` is rejected by the
`frame ≤ front_frame - capacity` guard. -/
lemma FrameBuffer.get_zero {T : Type} (fb : FrameBuffer T) : fb.get 0 = none := by
  unfold FrameBuffer.get FrameBuffer.index
  split
  · rfl
  · rename_i hgt
    have : ¬ (0 : Nat) > fb.front_frame := by omega
    simp only [if_neg this] at hgt
    rw [if_pos (Nat.zero_le _)] at hgt
    exact absurd hgt (by simp)

/-! ### Claim C2 -/

/-- Claim C2: if the consolidated rollback range is at least `rollback_window`
frames deep, `rollback_initiated` panics (`.error`) before mutating anything:
it never rewinds the clock, never zeroes the period, and never truncates the
range and proceeds. -/
theorem claim_C2_depth_enforcement (rollback_window : Nat) (s : Sim)
    (rb : Rollback) (hrb : s.rollback = some rb)
    (hdeep : rb.range_end - rb.range_start ≥ rollback_window) :
    rollback_initiated rollback_window s = .error () := by
  unfold rollback_initiated
  rw [hrb]
  simp [hdeep]

/-- Concrete state for the C2/C10 witnesses. -/
def simW : Sim :=
  { clock := 100, period := 15625, rollback := some (Rollback.new 90 100),
    previous_rollback := none, num_rollbacks := 3 }

/-- Witness for claim C2: a rollback of depth 10 with window 10 panics. -/
theorem claim_C2_witness :
    rollback_initiated 10 simW = .error () :=
  claim_C2_depth_enforcement 10 simW (Rollback.new 90 100) rfl (by decide)

/-! ### Claim C10 -/

/-- Claim C10: the fixed-update period round-trips across a rollback episode.
`rollback_initiated` saves the current period into `rb.original_period` and
zeroes the live period (also bumping the rollback counter and rewinding the
clock); `check_for_rollback_completion` leaves any state whose clock differs
from `rb.range.end` untouched, and at `rb.range.end` restores the live period
to exactly the saved value, stores a `PreviousRollback` copy of the
descriptor, and removes the `Rollback` resource. -/
theorem claim_C10_period_roundtrip (rollback_window : Nat) (s : Sim)
    (rb : Rollback) (hrb : s.rollback = some rb)
    (hok : rb.range_end - rb.range_start < rollback_window) :
    rollback_initiated rollback_window s =
      .ok { s with
            rollback := some { rb with original_period := some s.period },
            num_rollbacks := s.num_rollbacks + 1,
            period := 0,
            clock := rb.range_start - 1 } ∧
    (∀ s2 : Sim, s2.rollback = some { rb with original_period := some s.period } →
      (s2.clock ≠ rb.range_end → check_for_rollback_completion s2 = .ok s2) ∧
      (s2.clock = rb.range_end →
        check_for_rollback_completion s2 =
          .ok { s2 with
                previous_rollback := some { rb with original_period := some s.period },
                period := s.period,
                rollback := none })) := by
  constructor
  · unfold rollback_initiated
    rw [hrb]
    simp [Nat.not_le.mpr hok]
  · intro s2 h2
    constructor
    · intro hne
      unfold check_for_rollback_completion
      rw [h2]
      have hne2 : ({ rb with original_period := some s.period } : Rollback).range_end ≠ s2.clock :=
        fun h => hne h.symm
      simp [hne2]
    · intro heq
      unfold check_for_rollback_completion
      rw [h2]
      simp [heq]

/-- The rollback descriptor of `simW` after initiation saved the period. -/
def rbW : Rollback :=
  { range_start := 90, range_end := 100, original_period := some 15625 }

/-- The mid-episode state used by the C10 witness: the clock has reached the
end of the range, the period is still zeroed. -/
def simW2 : Sim :=
  { clock := 100, period := 0, rollback := some rbW,
    previous_rollback := none, num_rollbacks := 4 }

/-- Witness for claim C10 at the concrete state `simW` (window 11, so the
depth-10 rollback is admitted): after initiation and completion at frame 100
the period is back to 15625. -/
theorem claim_C10_witness :
    rollback_initiated 11 simW =
      .ok { clock := 89, period := 0, rollback := some rbW,
            previous_rollback := none, num_rollbacks := 4 } ∧
    check_for_rollback_completion simW2 =
      .ok { clock := 100, period := 15625, rollback := none,
            previous_rollback := some rbW, num_rollbacks := 4 } := by
  have h := claim_C10_period_roundtrip 11 simW (Rollback.new 90 100) rfl (by decide)
  exact ⟨h.1, (h.2 simW2 rfl).2 rfl⟩

/-! ### Claim C9 -/

/-- Claim C9: an entity with a `DespawnMarker` stamped at frame `m` is
despawned exactly on the tick where the clock equals `m + rollback_window`
(so never at any earlier frame); and a marker with no frame is stamped with
the current clock frame and the entity is not despawned on that tick. -/
theorem claim_C9_despawn_timing (m game_clock rollback_window : Nat)
    (hbound : m + rollback_window < 4294967296) :
    ((despawn_marker_step (some m) game_clock rollback_window).2 = true ↔
      game_clock = m + rollback_window) ∧
    despawn_marker_step none game_clock rollback_window =
      (some game_clock, false) := by
  constructor
  · simp [despawn_marker_step, Nat.mod_eq_of_lt hbound, eq_comm]
  · rfl

/-- Witness for claim C9: marker frame 4, window 5 — despawned at clock 9
and not at clock 8, and an unset marker at clock 7 is stamped with 7. -/
theorem claim_C9_witness :
    (((despawn_marker_step (some 4) 9 5).2 = true ↔ (9 : Nat) = 4 + 5) ∧
      despawn_marker_step none 9 5 = (some 9, false)) ∧
    (((despawn_marker_step (some 4) 8 5).2 = true ↔ (8 : Nat) = 4 + 5) ∧
      despawn_marker_step none 8 5 = (some 8, false)) :=
  ⟨claim_C9_despawn_timing 4 9 5 (by decide), claim_C9_despawn_timing 4 8 5 (by decide)⟩

/-! ### Claim C1 -/

/-- A history that is dead both at the rollback target frame 5 and at the
range end 8: its only alive range is `[1, 3)`. -/
def chC1 : ComponentHistory Nat :=
  { values := ((FrameBuffer.with_capacity Nat 10).insert 1 42).1,
    alive_ranges := [(1, some 3)],
    correction_logging_enabled := false }

/-- The rollback descriptor used around claim C1: resimulate frames 5..8. -/
def rbC1 : Rollback := Rollback.new 5 8

/-- Counterexample to claim C1 as stated: at target frame 5 the history is
dead and a live component (value 7) is present, so the claim's
classification `(dead, present)` demands that the live component be removed;
but `rollback_component` classifies by
`(alive at target frame, alive at range end)` and, both being dead
(`DeadThenDead`), performs a no-op — the live value survives. -/
theorem claim_C1_counterexample :
    chC1.alive_at_frame 5 = false ∧
    rollback_component rbC1 5 (some 7) chC1 none = .ok RollbackAction.noop ∧
    applyAction (some 7) RollbackAction.noop ≠ none := by
  exact ⟨rfl, rfl, by simp [applyAction]⟩

/-- Claim C1 as amended: at the start of a rollback with the clock at target
frame `F` (and no `OriginFrame`), `rollback_component` classifies by
`(history alive at F, history alive at rb.range.end)` — not by presence of
the live component:
* dead at both: no-op (even when a live component is present);
* dead at `F`, alive at the range end: remove the live component;
* alive at `F` with `history.at_frame F = some v`: the live value becomes
  `v` (overwritten in place when present, inserted when absent or when dead
  at the range end);
* alive at `F` but `history.at_frame F = none`: panic — a fatal internal
  error rather than silent continuation. -/
theorem claim_C1_restore_classification {T : Type} (rb : Rollback)
    (F : Nat) (opt_comp : Option T) (ch : ComponentHistory T) :
    (ch.alive_at_frame F = false → ch.alive_at_frame rb.range_end = false →
      rollback_component rb F opt_comp ch none = .ok .noop) ∧
    (ch.alive_at_frame F = false → ch.alive_at_frame rb.range_end = true →
      rollback_component rb F opt_comp ch none = .ok .removeComp) ∧
    (∀ v, ch.alive_at_frame F = true → ch.at_frame F = some v →
      ∃ a, rollback_component rb F opt_comp ch none = .ok a ∧
        applyAction opt_comp a = some v) ∧
    (ch.alive_at_frame F = true → ch.at_frame F = none →
      rollback_component rb F opt_comp ch none = .error ()) := by
  refine ⟨?_, ?_, ?_, ?_⟩
  · intro h1 h2
    simp [rollback_component, h1, h2]
  · intro h1 h2
    simp [rollback_component, h1, h2]
  · intro v h1 h2
    cases h3 : ch.alive_at_frame rb.range_end
    · exact ⟨.insertComp v, by simp [rollback_component, h1, h2, h3], rfl⟩
    · cases opt_comp with
      | none => exact ⟨.insertComp v, by simp [rollback_component, h1, h2, h3], rfl⟩
      | some w => exact ⟨.replaceComp v, by simp [rollback_component, h1, h2, h3], rfl⟩
  · intro h1 h2
    cases h3 : ch.alive_at_frame rb.range_end <;>
      simp [rollback_component, h1, h2, h3]

/-- A history dead at frame 5 but alive at frame 8 (alive range open from 6)
for the C1 witness. -/
def chC1W : ComponentHistory Nat :=
  { values := ((FrameBuffer.with_capacity Nat 10).insert 6 42).1,
    alive_ranges := [(6, none)],
    correction_logging_enabled := false }

/-- Witness for (amended) claim C1: dead at the target frame 5 but alive at
the range end 8, with a live component present — it gets removed. -/
theorem claim_C1_witness :
    rollback_component rbC1 5 (some 7) chC1W none = .ok RollbackAction.removeComp :=
  (claim_C1_restore_classification rbC1 5 (some 7) chC1W).2.1 (by decide) (by decide)

/-! ### Claim C8 -/

/-- Claim C8: with correction logging enabled for the component type and the
recording step running during a rollback at the frame equal to the rollback
range end: if the previously stored history value at that frame differs from
the current (resimulated) component value, the entity's correction slot ends
up holding `TimewarpCorrection{before = stored value, after = resimulated
value, frame = clock}` (created or updated); if the two values are equal, or
no value is stored at that frame, the correction slot is left untouched. -/
theorem claim_C8_correction_logging {T : Type} [DecidableEq T] (comp : T)
    (ch : ComponentHistory T) (opt_correction : Option (TimewarpCorrection T))
    (game_clock : Nat) (rb : Rollback)
    (henabled : ch.correction_logging_enabled = true)
    (hend : rb.range_end = game_clock) :
    (∀ old_val, ch.at_frame game_clock = some old_val → old_val ≠ comp →
      (record_component_history comp ch opt_correction game_clock (some rb)).2 =
        some ⟨old_val, comp, game_clock⟩) ∧
    (∀ old_val, ch.at_frame game_clock = some old_val → old_val = comp →
      (record_component_history comp ch opt_correction game_clock (some rb)).2 =
        opt_correction) ∧
    (ch.at_frame game_clock = none →
      (record_component_history comp ch opt_correction game_clock (some rb)).2 =
        opt_correction) := by
  refine ⟨?_, ?_, ?_⟩
  · intro old_val hstored hne
    simp [record_component_history, henabled, hend, hstored, hne]
  · intro old_val hstored heq
    simp [record_component_history, henabled, hend, hstored, heq]
  · intro hnone
    simp [record_component_history, henabled, hend, hnone]

/-- A history with correction logging enabled and predicted value 10 stored
at frame 8, for the C8 witness. -/
def chC8 : ComponentHistory Nat :=
  { values := ((FrameBuffer.with_capacity Nat 10).insert 8 10).1,
    alive_ranges := [(1, none)],
    correction_logging_enabled := true }

/-- Witness for claim C8: at the end frame 8 of rollback `rbC8 = 5..8`, the
resimulated value 12 differs from the stored 10 and yields a correction
`{before := 10, after := 12, frame := 8}`; the resimulated value 10 equals
the stored one and leaves the (empty) correction slot untouched. -/
theorem claim_C8_witness :
    (record_component_history 12 chC8 none 8 (some (Rollback.new 5 8))).2 =
      some ⟨10, 12, 8⟩ ∧
    (record_component_history 10 chC8 none 8 (some (Rollback.new 5 8))).2 = none := by
  have h1 := claim_C8_correction_logging 12 chC8 none 8 (Rollback.new 5 8) rfl rfl
  have h2 := claim_C8_correction_logging 10 chC8 none 8 (Rollback.new 5 8) rfl rfl
  exact ⟨h1.1 10 (by decide) (by decide), h2.2.1 10 (by decide) rfl⟩

/-! ### Claim C7 -/

/-- Claim C7: when the stored predicted value at the newest snapshot frame
equals the newly arrived authoritative value and `force_rollback_always` is
disabled, processing the snapshot raises no `RollbackRequest` and leaves the
component history unchanged (so no rollback is triggered and the rollback
counter stays put). -/
theorem claim_C7_confirmed_prediction {T : Type} [DecidableEq T]
    (ss : FrameBuffer T) (ch : ComponentHistory T) (tw_last_snap : Nat)
    (game_clock : Nat) (v : T)
    (hss : ss.get ss.newest_frame = some v)
    (hch : ch.at_frame ss.newest_frame = some v) :
    ∃ out, apply_snapshots_and_maybe_rollback ss ch tw_last_snap game_clock false =
        .ok out ∧ out.requests = [] ∧ out.comp_hist = ch := by
  have h0 : ss.newest_frame ≠ 0 := by
    intro h
    rw [h, FrameBuffer.get_zero] at hss
    exact Option.noConfusion hss
  by_cases hc : ss.newest_frame = game_clock
  · subst hc
    refine ⟨⟨ch, [], some v, 1, 0, max tw_last_snap ss.newest_frame⟩, ?_, rfl, rfl⟩
    simp [apply_snapshots_and_maybe_rollback, h0, hss]
  · refine ⟨⟨ch, [], none, 0, 0, max tw_last_snap ss.newest_frame⟩, ?_, rfl, rfl⟩
    simp [apply_snapshots_and_maybe_rollback, h0, hss, hc, hch]

/-- Server snapshot buffer for the C7 witness: authoritative value 5 at
frame 6. -/
def ssC7 : FrameBuffer Nat := ((FrameBuffer.with_capacity Nat 60).insert 6 5).1

/-- Component history for the C7 witness: the locally predicted value at
frame 6 is also 5. -/
def chC7 : ComponentHistory Nat :=
  { values := (((FrameBuffer.with_capacity Nat 10).insert 1 0).1.insert 6 5).1,
    alive_ranges := [(1, none)],
    correction_logging_enabled := false }

/-- Witness for claim C7: snapshot value 5 at frame 6 matches the stored
prediction at clock 10, so no rollback request is raised. -/
theorem claim_C7_witness :
    ∃ out, apply_snapshots_and_maybe_rollback ssC7 chC7 0 10 false = .ok out ∧
      out.requests = [] ∧ out.comp_hist = chC7 :=
  claim_C7_confirmed_prediction ssC7 chC7 0 10 5 (by decide) (by decide)

/-! ### Claim C3 -/

/-- The `Oldest` branch of the drain-loop body of
`consolidate_rollback_requests`. -/
def oldestStep (rb_frame f : Nat) : Nat :=
  if rb_frame = 0 ∨ f < rb_frame then f else rb_frame

/-- The `Newest` branch of the drain-loop body of
`consolidate_rollback_requests`. -/
def newestStep (rb_frame f : Nat) : Nat :=
  if rb_frame = 0 ∨ f > rb_frame then f else rb_frame

lemma consolidate_fold_oldest_eq (reqs : List Nat) :
    consolidate_fold .Oldest reqs = reqs.foldl oldestStep 0 := rfl

lemma consolidate_fold_newest_eq (reqs : List Nat) :
    consolidate_fold .Newest reqs = reqs.foldl newestStep 0 := rfl

lemma oldest_fold_go (reqs : List Nat) :
    ∀ a : Nat, a ≠ 0 → (∀ f ∈ reqs, f ≠ 0) →
      (reqs.foldl oldestStep a = a ∨ reqs.foldl oldestStep a ∈ reqs) ∧
      reqs.foldl oldestStep a ≤ a ∧
      ∀ f ∈ reqs, reqs.foldl oldestStep a ≤ f := by
  induction reqs with
  | nil => exact fun a ha hz => ⟨Or.inl rfl, le_refl a, by simp⟩
  | cons g t ih =>
    intro a ha hz
    have hg : g ≠ 0 := hz g (List.mem_cons_self g t)
    have hstep : List.foldl oldestStep a (g :: t) =
        List.foldl oldestStep (oldestStep a g) t := rfl
    by_cases hlt : g < a
    · have hsg : oldestStep a g = g := by simp [oldestStep, hlt]
      have h := ih g hg (fun f hf => hz f (List.mem_cons_of_mem g hf))
      rw [hstep, hsg]
      refine ⟨?_, le_trans h.2.1 (le_of_lt hlt), ?_⟩
      · rcases h.1 with h1 | h1
        · exact Or.inr (by rw [h1]; exact List.mem_cons_self g t)
        · exact Or.inr (List.mem_cons_of_mem g h1)
      · intro f hf
        rcases List.mem_cons.mp hf with rfl | hf2
        · exact h.2.1
        · exact h.2.2 f hf2
    · have hsg : oldestStep a g = a := by simp [oldestStep, hlt, ha]
      have h := ih a ha (fun f hf => hz f (List.mem_cons_of_mem g hf))
      rw [hstep, hsg]
      refine ⟨?_, h.2.1, ?_⟩
      · rcases h.1 with h1 | h1
        · exact Or.inl h1
        · exact Or.inr (List.mem_cons_of_mem g h1)
      · intro f hf
        rcases List.mem_cons.mp hf with rfl | hf2
        · exact le_trans h.2.1 (Nat.le_of_not_lt hlt)
        · exact h.2.2 f hf2

lemma newest_fold_go (reqs : List Nat) :
    ∀ a : Nat, a ≠ 0 → (∀ f ∈ reqs, f ≠ 0) →
      (reqs.foldl newestStep a = a ∨ reqs.foldl newestStep a ∈ reqs) ∧
      a ≤ reqs.foldl newestStep a ∧
      ∀ f ∈ reqs, f ≤ reqs.foldl newestStep a := by
  induction reqs with
  | nil => exact fun a ha hz => ⟨Or.inl rfl, le_refl a, by simp⟩
  | cons g t ih =>
    intro a ha hz
    have hg : g ≠ 0 := hz g (List.mem_cons_self g t)
    have hstep : List.foldl newestStep a (g :: t) =
        List.foldl newestStep (newestStep a g) t := rfl
    by_cases hlt : g > a
    · have hsg : newestStep a g = g := by simp [newestStep, hlt]
      have h := ih g hg (fun f hf => hz f (List.mem_cons_of_mem g hf))
      rw [hstep, hsg]
      refine ⟨?_, le_trans (le_of_lt hlt) h.2.1, ?_⟩
      · rcases h.1 with h1 | h1
        · exact Or.inr (by rw [h1]; exact List.mem_cons_self g t)
        · exact Or.inr (List.mem_cons_of_mem g h1)
      · intro f hf
        rcases List.mem_cons.mp hf with rfl | hf2
        · exact h.2.1
        · exact h.2.2 f hf2
    · have hsg : newestStep a g = a := by simp [newestStep, hlt, ha]
      have h := ih a ha (fun f hf => hz f (List.mem_cons_of_mem g hf))
      rw [hstep, hsg]
      refine ⟨?_, h.2.1, ?_⟩
      · rcases h.1 with h1 | h1
        · exact Or.inl h1
        · exact Or.inr (List.mem_cons_of_mem g h1)
      · intro f hf
        rcases List.mem_cons.mp hf with rfl | hf2
        · exact le_trans (Nat.le_of_not_lt hlt) h.2.1
        · exact h.2.2 f hf2

/-- Claim C3: for a non-empty batch of rollback requests (all frames nonzero
— 0 is the reserved "no data" sentinel), `consolidate_rollback_requests`
produces exactly one `Rollback` whose `range.start` is the minimum requested
frame under `Oldest` and the maximum under `Newest`, and whose `range.end`
is the current clock frame. -/
theorem claim_C3_consolidation (reqs : List Nat)
    (game_clock : Nat) (hne : reqs ≠ [])
    (hnz : ∀ f ∈ reqs, f ≠ 0) :
    (∃ rb, consolidate_rollback_requests .Oldest reqs game_clock = some rb ∧
      rb.range_start ∈ reqs ∧ (∀ f ∈ reqs, rb.range_start ≤ f) ∧
      rb.range_end = game_clock) ∧
    (∃ rb, consolidate_rollback_requests .Newest reqs game_clock = some rb ∧
      rb.range_start ∈ reqs ∧ (∀ f ∈ reqs, f ≤ rb.range_start) ∧
      rb.range_end = game_clock) := by
  obtain ⟨g, t, rfl⟩ : ∃ g t, reqs = g :: t := by
    cases reqs with
    | nil => exact absurd rfl hne
    | cons g t => exact ⟨g, t, rfl⟩
  have hg : g ≠ 0 := hnz g (List.mem_cons_self g t)
  have hzt : ∀ f ∈ t, f ≠ 0 := fun f hf => hnz f (List.mem_cons_of_mem g hf)
  constructor
  · have hfold : consolidate_fold .Oldest (g :: t) = List.foldl oldestStep g t := by
      rw [consolidate_fold_oldest_eq]
      show List.foldl oldestStep (oldestStep 0 g) t = _
      simp [oldestStep]
    have h := oldest_fold_go t g hg hzt
    refine ⟨Rollback.new (consolidate_fold .Oldest (g :: t)) game_clock,
      by simp [consolidate_rollback_requests], ?_, ?_, rfl⟩
    · rw [Rollback.new, hfold]
      rcases h.1 with h1 | h1
      · rw [h1]; exact List.mem_cons_self g t
      · exact List.mem_cons_of_mem g h1
    · intro f hf
      rw [Rollback.new, hfold]
      rcases List.mem_cons.mp hf with rfl | hf2
      · exact h.2.1
      · exact h.2.2 f hf2
  · have hfold : consolidate_fold .Newest (g :: t) = List.foldl newestStep g t := by
      rw [consolidate_fold_newest_eq]
      show List.foldl newestStep (newestStep 0 g) t = _
      simp [newestStep]
    have h := newest_fold_go t g hg hzt
    refine ⟨Rollback.new (consolidate_fold .Newest (g :: t)) game_clock,
      by simp [consolidate_rollback_requests], ?_, ?_, rfl⟩
    · rw [Rollback.new, hfold]
      rcases h.1 with h1 | h1
      · rw [h1]; exact List.mem_cons_self g t
      · exact List.mem_cons_of_mem g h1
    · intro f hf
      rw [Rollback.new, hfold]
      rcases List.mem_cons.mp hf with rfl | hf2
      · exact h.2.1
      · exact h.2.2 f hf2

/-- Witness for claim C3 at the spec's own example: requests `{3, 5}` at
clock 10 yield `range.start = 3` under `Oldest` and `range.start = 5` under
`Newest` (the minimum / maximum membership bounds pin those values). -/
theorem claim_C3_witness :
    (∃ rb, consolidate_rollback_requests .Oldest [3, 5] 10 = some rb ∧
      rb.range_start ∈ [3, 5] ∧ (∀ f ∈ [3, 5], rb.range_start ≤ f) ∧
      rb.range_end = 10) ∧
    (∃ rb, consolidate_rollback_requests .Newest [3, 5] 10 = some rb ∧
      rb.range_start ∈ [3, 5] ∧ (∀ f ∈ [3, 5], f ≤ rb.range_start) ∧
      rb.range_end = 10) :=
  claim_C3_consolidation [3, 5] 10 (by decide) (by decide)

/-! ### Claim C4 -/

/-- Claim C4 wellformedness, part 1: `alive_ranges` sorted by start frame. -/
def RangesSorted (rs : List FrameRange) : Prop :=
  List.Chain' (fun a b => a.1 ≤ b.1) rs

/-- Claim C4 wellformedness, part 2: pairwise non-overlapping ranges (no
frame is contained in two of them). -/
def RangesDisjoint (rs : List FrameRange) : Prop :=
  List.Pairwise
    (fun a b => ∀ f, ¬(rangeContains a f = true ∧ rangeContains b f = true)) rs

/-- Claim C4 wellformedness, part 3: at most the last range is open-ended. -/
def AtMostLastOpen (rs : List FrameRange) : Prop :=
  ∀ r ∈ rs.dropLast, r.2.isSome = true

lemma rangeContains_degenerate (b f : Nat) :
    rangeContains (b, some b) f = false := by
  by_cases h : b ≤ f <;> simp [rangeContains, h]

lemma any_replicate_degenerate (k : Nat) (b f : Nat)
    (tail : List FrameRange) :
    (List.replicate k ((b, some b) : FrameRange) ++ tail).any
        (fun r => rangeContains r f) =
      tail.any (fun r => rangeContains r f) := by
  induction k with
  | zero => rfl
  | succ n ih =>
    rw [List.replicate_succ, List.cons_append, List.any_cons,
      rangeContains_degenerate, Bool.false_or, ih]

/-- The possible shapes of the final segment of `alive_ranges` for a history
born at `b` and mutated only through the two report calls. -/
def TailShape (b : Nat) (tail : List FrameRange) : Prop :=
  tail = [] ∨ tail = [(b, none)] ∨ ∃ e, b ≤ e ∧ tail = [(b, some e)]

/-- Reachability invariant for claim C4: the stored values only ever live at
the birth frame `b`, and `alive_ranges` is a stack of degenerate closed
ranges `[b, b)` topped by at most one real range starting at `b`. -/
def GoodCH {T : Type} (b : Nat) (ch : ComponentHistory T) : Prop :=
  (∀ f, (ch.values.get f).isSome = true → f = b) ∧
  ∃ k tail, ch.alive_ranges = List.replicate k ((b, some b) : FrameRange) ++ tail ∧
    TailShape b tail

lemma fresh_insert_eq {T : Type} (len b : Nat) (v : T) :
    ((FrameBuffer.with_capacity T len).insert b v).1 =
      { entries := (some v :: List.replicate (b - 1) (none : Option T)).take len,
        front_frame := b, capacity := len } := by
  rcases Nat.eq_zero_or_pos b with hb | hb
  · subst hb
    simp [FrameBuffer.insert, FrameBuffer.with_capacity, FrameBuffer.oldest_frame,
      FrameBuffer.index]
  · simp [FrameBuffer.insert, FrameBuffer.with_capacity, FrameBuffer.oldest_frame,
      FrameBuffer.index, hb, Nat.not_lt_zero]

lemma fresh_get {T : Type} (len b : Nat) (v : T) (f : Nat) (hfb : f ≠ b) :
    ((FrameBuffer.with_capacity T len).insert b v).1.get f = none := by
  rw [fresh_insert_eq]
  unfold FrameBuffer.get FrameBuffer.index
  by_cases h1 : f > b
  · simp [h1]
  · by_cases h2 : f ≤ b - len
    · simp [h1, h2]
    · have h1b : f ≤ b := Nat.not_lt.mp h1
      have h2b : b - len < f := Nat.not_le.mp h2
      have hfb2 : f < b := Nat.lt_of_le_of_ne h1b hfb
      have hf1 : b - f < len := by omega
      have hj : b - f = (b - f - 1) + 1 := by omega
      simp only [if_neg h1, if_neg h2, List.get?_eq_getElem?]
      rw [List.getElem?_take_of_lt hf1, hj]
      simp only [List.getElem?_cons_succ, List.getElem?_replicate]
      rcases Nat.lt_or_ge (b - f - 1) (b - 1) with hlt | hge
      · simp [hlt]
      · simp [Nat.not_lt.mpr hge]

lemma goodCH_init {T : Type} (len b : Nat) (v : T) :
    GoodCH b (ComponentHistory.with_capacity len b v) := by
  refine ⟨?_, 0, [(b, none)], rfl, Or.inr (Or.inl rfl)⟩
  intro f hsome
  by_contra hfb
  have : (ComponentHistory.with_capacity len b v).values.get f = none :=
    fresh_get len b v f hfb
  rw [this] at hsome
  exact Bool.noConfusion hsome

lemma report_birth_ok {T : Type} (ch ch' : ComponentHistory T) (f : Nat)
    (h : ch.report_birth_at_frame f = .ok ch') :
    (ch.alive_at_frame f = true ∧ ch' = ch) ∨
    (ch.alive_at_frame f = false ∧ (ch.values.get f).isSome = true ∧
      ch' = { ch with alive_ranges := ch.alive_ranges ++ [(f, none)] }) := by
  unfold ComponentHistory.report_birth_at_frame at h
  by_cases h1 : ch.alive_at_frame f
  · simp only [h1, if_true] at h
    simp at h
    exact Or.inl ⟨h1, h.symm⟩
  · simp only [h1, if_false, Bool.false_eq_true] at h
    by_cases h2 : (ch.values.get f).isSome
    · simp only [h2, if_true] at h
      simp at h
      exact Or.inr ⟨by simp [h1], h2, h.symm⟩
    · simp only [h2, if_false, Bool.false_eq_true] at h
      exact Except.noConfusion h

lemma goodCH_birth {T : Type} (b f : Nat) (ch ch' : ComponentHistory T)
    (hg : GoodCH b ch) (h : ch.report_birth_at_frame f = .ok ch') :
    GoodCH b ch' := by
  rcases report_birth_ok ch ch' f h with ⟨_, rfl⟩ | ⟨hdead, hsome, rfl⟩
  · exact hg
  · obtain ⟨hv, k, tail, hr, hshape⟩ := hg
    have hfb : f = b := hv f hsome
    have hdead2 : tail.any (fun r => rangeContains r f) = false := by
      have := hdead
      unfold ComponentHistory.alive_at_frame at this
      rwa [hr, any_replicate_degenerate] at this
    refine ⟨hv, ?_⟩
    rcases hshape with rfl | rfl | ⟨e, he, rfl⟩
    · refine ⟨k, [(b, none)], ?_, Or.inr (Or.inl rfl)⟩
      show ch.alive_ranges ++ [(f, none)] =
        List.replicate k ((b, some b) : FrameRange) ++ [(b, none)]
      rw [hr, hfb, List.append_nil]
    · exfalso
      rw [hfb] at hdead2
      simp [rangeContains] at hdead2
    · have heb : e = b := by
        rw [hfb] at hdead2
        simp [rangeContains] at hdead2
        omega
      refine ⟨k + 1, [(b, none)], ?_, Or.inr (Or.inl rfl)⟩
      show ch.alive_ranges ++ [(f, none)] =
        List.replicate (k + 1) ((b, some b) : FrameRange) ++ [(b, none)]
      rw [hr, hfb, heb, List.replicate_succ']

lemma goodCH_death {T : Type} (b f : Nat) (ch : ComponentHistory T)
    (hg : GoodCH b ch) : GoodCH b (ch.report_death_at_frame f) := by
  obtain ⟨hv, k, tail, hr, hshape⟩ := hg
  unfold ComponentHistory.report_death_at_frame
  by_cases ha : ch.alive_at_frame f
  · simp only [ha, if_true]
    have halive : tail.any (fun r => rangeContains r f) = true := by
      have := ha
      unfold ComponentHistory.alive_at_frame at this
      rwa [hr, any_replicate_degenerate] at this
    refine ⟨hv, ?_⟩
    rcases hshape with rfl | rfl | ⟨e, he, rfl⟩
    · exact absurd halive (by simp)
    · have hbf : b ≤ f := by
        simp [rangeContains] at halive
        exact halive
      refine ⟨k, [(b, some f)], ?_, Or.inr (Or.inr ⟨f, hbf, rfl⟩)⟩
      rw [hr, List.dropLast_concat, List.getLast?_concat]
    · have hbf : b ≤ f := by
        simp [rangeContains] at halive
        exact halive.1
      refine ⟨k, [(b, some f)], ?_, Or.inr (Or.inr ⟨f, hbf, rfl⟩)⟩
      rw [hr, List.dropLast_concat, List.getLast?_concat]
  · simp only [ha, if_false, Bool.false_eq_true]
    exact ⟨hv, k, tail, hr, hshape⟩

lemma goodCH_run {T : Type} (b : Nat) (ops : List CHOp) :
    ∀ ch ch' : ComponentHistory T, GoodCH b ch →
      runCHOps ch ops = .ok ch' → GoodCH b ch' := by
  induction ops with
  | nil =>
    intro ch ch' hg h
    simp [runCHOps] at h
    exact h ▸ hg
  | cons op t ih =>
    intro ch ch' hg h
    unfold runCHOps at h
    cases hop : applyCHOp ch op with
    | error e =>
      rw [hop] at h
      exact Except.noConfusion h
    | ok ch2 =>
      rw [hop] at h
      refine ih ch2 ch' ?_ h
      cases op with
      | birth f => exact goodCH_birth b f ch ch2 hg hop
      | death f =>
        have h2 : ch2 = ch.report_death_at_frame f := by
          have := hop
          unfold applyCHOp at this
          simp at this
          exact this.symm
        rw [h2]
        exact goodCH_death b f ch hg

lemma goodCH_fst {T : Type} (b : Nat) (ch : ComponentHistory T)
    (hg : GoodCH b ch) : ∀ r ∈ ch.alive_ranges, r.1 = b := by
  obtain ⟨_, k, tail, hr, hshape⟩ := hg
  intro r hmem
  rw [hr] at hmem
  rcases List.mem_append.mp hmem with h1 | h1
  · rw [List.eq_of_mem_replicate h1]
  · rcases hshape with rfl | rfl | ⟨e, he, rfl⟩ <;> simp_all

lemma chain_of_fst_eq (b : Nat) :
    ∀ rs : List FrameRange, (∀ r ∈ rs, r.1 = b) → RangesSorted rs := by
  intro rs
  induction rs with
  | nil => exact fun _ => List.chain'_nil
  | cons x t ih =>
    intro h
    cases t with
    | nil => exact List.chain'_singleton x
    | cons y t2 =>
      rw [RangesSorted, List.chain'_cons]
      refine ⟨?_, ih (fun r hr => h r (List.mem_cons_of_mem x hr))⟩
      rw [h x (List.mem_cons_self _ _),
        h y (List.mem_cons_of_mem x (List.mem_cons_self _ _))]

lemma pairwise_replicate_degenerate (k b : Nat) :
    List.Pairwise
      (fun a c => ∀ f, ¬(rangeContains a f = true ∧ rangeContains c f = true))
      (List.replicate k ((b, some b) : FrameRange)) := by
  induction k with
  | zero => exact List.Pairwise.nil
  | succ n ih =>
    rw [List.replicate_succ]
    refine List.Pairwise.cons ?_ ih
    intro c _ f hf
    rw [rangeContains_degenerate] at hf
    exact Bool.noConfusion hf.1

lemma goodCH_disjoint {T : Type} (b : Nat) (ch : ComponentHistory T)
    (hg : GoodCH b ch) : RangesDisjoint ch.alive_ranges := by
  obtain ⟨_, k, tail, hr, hshape⟩ := hg
  rw [RangesDisjoint, hr, List.pairwise_append]
  refine ⟨pairwise_replicate_degenerate k b, ?_, ?_⟩
  · rcases hshape with rfl | rfl | ⟨e, he, rfl⟩
    · exact List.Pairwise.nil
    · exact List.pairwise_singleton _ _
    · exact List.pairwise_singleton _ _
  · intro a ha c _ f hf
    rw [List.eq_of_mem_replicate ha, rangeContains_degenerate] at hf
    exact Bool.noConfusion hf.1

lemma goodCH_lastopen {T : Type} (b : Nat) (ch : ComponentHistory T)
    (hg : GoodCH b ch) : AtMostLastOpen ch.alive_ranges := by
  obtain ⟨_, k, tail, hr, hshape⟩ := hg
  rw [AtMostLastOpen, hr]
  rcases hshape with rfl | rfl | ⟨e, he, rfl⟩
  · intro r hmem
    rw [List.append_nil] at hmem
    have hmem2 := List.dropLast_subset _ hmem
    simp [List.eq_of_mem_replicate hmem2]
  · intro r hmem
    rw [List.dropLast_concat] at hmem
    simp [List.eq_of_mem_replicate hmem]
  · intro r hmem
    rw [List.dropLast_concat] at hmem
    simp [List.eq_of_mem_replicate hmem]

lemma alive_at_frame_iff {T : Type} (ch : ComponentHistory T) (f : Nat) :
    ch.alive_at_frame f = true ↔
      ∃ r ∈ ch.alive_ranges, rangeContains r f = true := by
  unfold ComponentHistory.alive_at_frame
  rw [List.any_eq_true]

/-- Claim C4: every `ComponentHistory` reachable from its construction
(`with_capacity len b v`) through any sequence of `report_birth_at_frame` and
`report_death_at_frame` calls (panicking sequences unreachable) keeps
`alive_ranges` sorted by start frame, pairwise non-overlapping, with at most
the last range open-ended; and `alive_at_frame f` returns true exactly when
`f` lies in `[start, end)` of some recorded range, the end treated as
infinite when open. -/
theorem claim_C4_alive_ranges_invariant {T : Type} (len b : Nat) (v : T)
    (ops : List CHOp) (ch : ComponentHistory T)
    (hrun : runCHOps (ComponentHistory.with_capacity len b v) ops = .ok ch) :
    (RangesSorted ch.alive_ranges ∧ RangesDisjoint ch.alive_ranges ∧
      AtMostLastOpen ch.alive_ranges) ∧
    ∀ f, ch.alive_at_frame f = true ↔
      ∃ r ∈ ch.alive_ranges, rangeContains r f = true := by
  have hg := goodCH_run b ops (ComponentHistory.with_capacity len b v) ch
    (goodCH_init len b v) hrun
  exact ⟨⟨chain_of_fst_eq b ch.alive_ranges (goodCH_fst b ch hg),
    goodCH_disjoint b ch hg, goodCH_lastopen b ch hg⟩,
    fun f => alive_at_frame_iff ch f⟩

/-- The concrete history reached in the C4 witness run: born at frame 5 with
value 3, killed at frame 7 (the later birth report at 5 is a tolerated no-op
and the death report at 9 hits a dead history). -/
def chC4 : ComponentHistory Nat :=
  { values := ((FrameBuffer.with_capacity Nat 10).insert 5 3).1,
    alive_ranges := [(5, some 7)],
    correction_logging_enabled := false }

/-- Witness for claim C4: the run `[death 7, birth 5, death 9]` from
`with_capacity 10 5 3` reaches `chC4`, whose ranges satisfy the invariant. -/
theorem claim_C4_witness :
    (RangesSorted chC4.alive_ranges ∧ RangesDisjoint chC4.alive_ranges ∧
      AtMostLastOpen chC4.alive_ranges) ∧
    ∀ f, chC4.alive_at_frame f = true ↔
      ∃ r ∈ chC4.alive_ranges, rangeContains r f = true :=
  claim_C4_alive_ranges_invariant 10 5 3
    [CHOp.death 7, CHOp.birth 5, CHOp.death 9] chC4 rfl

end Timewarp
